import Mathlib

/-!
Verification of the multi-collection weighted retrieval and context-assembly
engine of the legislative-assistant application, together with its self-ask
question decomposition layer.

The embedding below follows the two coexisting implementations of the engine:

* `app.py` — functions `search_all_indices` and `format_context` (the root
  Streamlit app).  Modelled here by `searchAllIndicesApp`, `formatContextApp`
  and their auxiliaries.
* `app/pages/01_Assistente_Virtual.py` — the same two function names with a
  different priority map, score formula, per-collection `k` scaling, result
  cap and group order.  Modelled by `searchAllIndicesPage`,
  `formatContextPage` and their auxiliaries.
* `app/utils/self_ask.py` — `SelfAskAssistant.decompose_question` and
  `answer_sub_question`.  Modelled by `decompose_question` and
  `answerSubQuestionConfidence`.
* `utils/self_ask.py` — `SelfAskAssistant._gerar_subperguntas` and
  `_buscar_contexto`.  Modelled by `gerar_subperguntas` and `confianca`.

External collaborators are abstracted exactly as the specification directs:
the embedding gateway and the FAISS nearest-neighbour index are opaque
services, so a `Collection` carries, for the query under consideration, the
hit list its index returns (`ranking`, ascending distance, slot ids of stored
vectors) together with its document list (`data`), its stored vector count
(`ntotal`) and a flag `fails` marking that `load_index_and_data` or
`index.search` raised an exception for this request.  Floating point
distances and scores are modelled by rationals; a fractional candidate-slot
budget is floored when slicing the ranking.
-/

/-- Python `str.lower` restricted to the character list of a string
(`Char.toLower` is applied character-wise, as `str.lower` does for the
ASCII keywords and queries involved here). -/
def pyLower (s : String) : List Char := s.data.map Char.toLower

/-- Substring test on character lists: some tail of `hay` starts with
`needle` (the semantics of Python's `needle in hay`). -/
def listContainsSub (needle hay : List Char) : Bool :=
  hay.tails.any (fun t => needle.isPrefixOf t)

/-- Python's `needle.lower() in hay.lower()`. -/
def pyIn (needle hay : String) : Bool :=
  listContainsSub (pyLower needle) (pyLower hay)

/-- One raw nearest-neighbour hit returned by a collection's index for the
query: the raw distance and the slot id of the stored vector. -/
structure Hit where
  dist : ℚ
  idx : ℕ
deriving DecidableEq

/-- One registered collection, as seen by `search_all_indices` for a fixed
query: its name, its pickled document list (`data`), the stored vector count
of its FAISS index (`ntotal`), the ascending-distance hit list the index
returns for the query's embedding (`ranking`), and whether loading or
searching this collection raises an exception (`fails`). -/
structure Collection where
  name : String
  data : List String
  ntotal : ℕ
  ranking : List Hit
  fails : Bool
deriving DecidableEq

/-- One entry of `all_results`: the dictionary
`{'text': ..., 'score': adjusted, 'source': index_name}`. -/
structure SearchResult where
  text : String
  score : ℚ
  source : String
deriving DecidableEq

/-- Priority map of `app.py` (`priority_map`, default `3` via `.get`). -/
def priorityMapApp (name : String) : ℚ :=
  if name = "insights_distribuicao" then 1/2
  else if name = "insights_despesas" then 1
  else if name = "sumarizacoes" then 3/2
  else if name = "deputados" then 2
  else if name = "despesas" then 2
  else if name = "proposicoes" then 2
  else 3

/-- Priority map of `01_Assistente_Virtual.py` (default `3` via `.get`). -/
def priorityMapPage (name : String) : ℚ :=
  if name = "sumarizacoes" then 1/2
  else if name = "proposicoes" then 1
  else if name = "insights_distribuicao" then 2
  else if name = "insights_despesas" then 2
  else if name = "deputados" then 3
  else if name = "despesas" then 3
  else 3

/-- Candidate-slot budget of `app.py`: `index_k = k * index_priority`. -/
def indexKApp (k : ℚ) (name : String) : ℚ := k * priorityMapApp name

/-- Candidate-slot budget of the assistant page:
`index_k = k * (1 + (1/index_priority))`. -/
def indexKPage (k : ℚ) (name : String) : ℚ := k * (1 + 1 / priorityMapPage name)

/-- Per-collection body of the `app.py` search loop: on an exception the
collection contributes nothing (`except ... continue`); otherwise the first
`index_k` hits are taken, hits whose slot id is not below `len(data)` are
dropped one by one, and each surviving hit becomes a result with
`adjusted_score = dist / index_priority`. -/
def collectResultsApp (k : ℚ) (c : Collection) : List SearchResult :=
  if c.fails then []
  else
    ((c.ranking.take (⌊indexKApp k c.name⌋).toNat).filter
        (fun h => decide (h.idx < c.data.length))).map
      (fun h => ⟨c.data.getD h.idx "", h.dist / priorityMapApp c.name, c.name⟩)

/-- Per-collection body of the assistant-page search loop: the slot budget is
additionally capped by `len(data)` (`min(index_k, len(data))`) and the score
formula is `adjusted_score = dist * index_priority`. -/
def collectResultsPage (k : ℚ) (c : Collection) : List SearchResult :=
  if c.fails then []
  else
    ((c.ranking.take (⌊min (indexKPage k c.name) (c.data.length : ℚ)⌋).toNat).filter
        (fun h => decide (h.idx < c.data.length))).map
      (fun h => ⟨c.data.getD h.idx "", h.dist * priorityMapPage c.name, c.name⟩)

/-- Comparison used by `all_results.sort(key=lambda x: x['score'])`. -/
def leScore : SearchResult → SearchResult → Prop := fun a b => a.score ≤ b.score

instance : DecidableRel leScore :=
  fun a b => inferInstanceAs (Decidable (a.score ≤ b.score))

instance : IsTotal SearchResult leScore := ⟨fun a b => le_total a.score b.score⟩

instance : IsTrans SearchResult leScore := ⟨fun _ _ _ h1 h2 => le_trans h1 h2⟩

/-- Function `search_all_indices` of `app.py`: accumulate every collection's
contribution in registry order, sort ascending by adjusted score (Python's
stable sort, modelled by insertion sort) and truncate to the cap of 30
(`all_results[:min(len(all_results), 30)]`). -/
def searchAllIndicesApp (colls : List Collection) (k : ℚ) : List SearchResult :=
  ((colls.flatMap (collectResultsApp k)).insertionSort leScore).take 30

/-- Query test of the assistant page:
`"proposição" in query.lower() or "proposicoes" in query.lower()`. -/
def proposicaoQuery (query : String) : Bool :=
  pyIn "proposição" query || pyIn "proposicoes" query

/-- Assistant-page pipeline after the query-dependent adjustment of `k`:
accumulate, sort ascending by adjusted score, truncate to the cap of 40. -/
def searchCorePage (colls : List Collection) (k : ℚ) : List SearchResult :=
  ((colls.flatMap (collectResultsPage k)).insertionSort leScore).take 40

/-- Function `search_all_indices` of `01_Assistente_Virtual.py`: the base `k`
is doubled when the query mentions proposições, then the common pipeline
runs. -/
def searchAllIndicesPage (colls : List Collection) (query : String) (k : ℚ) :
    List SearchResult :=
  searchCorePage colls (if proposicaoQuery query then k * 2 else k)

/-- C4 helper: a failing collection contributes the empty result list. -/
theorem collectResultsApp_fails {c : Collection} (h : c.fails = true) (k : ℚ) :
    collectResultsApp k c = [] := by
  simp [collectResultsApp, h]

/-- C4 helper, assistant-page version. -/
theorem collectResultsPage_fails {c : Collection} (h : c.fails = true) (k : ℚ) :
    collectResultsPage k c = [] := by
  simp [collectResultsPage, h]

/-- C4: a collection whose load or search raises an exception is absorbed by
the `try/except ... continue`: the aggregate call returns exactly what it
returns when that collection does not exist at all, in both implementations,
so every other collection's contributed results, their count and their
relative ranking are unchanged. -/
theorem failing_collection_isolated (pre post : List Collection)
    (c : Collection) (hc : c.fails = true) (k : ℚ) (query : String) :
    searchAllIndicesApp (pre ++ c :: post) k = searchAllIndicesApp (pre ++ post) k ∧
    searchAllIndicesPage (pre ++ c :: post) query k =
      searchAllIndicesPage (pre ++ post) query k := by
  constructor
  · simp [searchAllIndicesApp, collectResultsApp_fails hc]
  · simp [searchAllIndicesPage, searchCorePage, collectResultsPage_fails hc]

/-- C4 witness: with one healthy collection and one corrupt collection, the
aggregate result is identical to the run where the corrupt collection is
absent. -/
theorem failing_collection_isolated_witness :
    searchAllIndicesApp
        [⟨"deputados", ["d"], 1, [⟨1, 0⟩], false⟩,
         ⟨"despesas", ["e"], 1, [⟨1, 0⟩], true⟩] 10 =
      searchAllIndicesApp [⟨"deputados", ["d"], 1, [⟨1, 0⟩], false⟩] 10 ∧
    searchAllIndicesPage
        [⟨"deputados", ["d"], 1, [⟨1, 0⟩], false⟩,
         ⟨"despesas", ["e"], 1, [⟨1, 0⟩], true⟩] "quem" 10 =
      searchAllIndicesPage [⟨"deputados", ["d"], 1, [⟨1, 0⟩], false⟩] "quem" 10 :=
  failing_collection_isolated [⟨"deputados", ["d"], 1, [⟨1, 0⟩], false⟩] []
    ⟨"despesas", ["e"], 1, [⟨1, 0⟩], true⟩ rfl 10 "quem"

/-- C5: in both implementations the merged cross-collection result list is
sorted by non-decreasing adjusted score and never exceeds the overall result
cap (30 in `app.py`, 40 in the assistant page). -/
theorem merged_sorted_and_capped (colls : List Collection) (k : ℚ) (query : String) :
    ((searchAllIndicesApp colls k).Sorted leScore ∧
      (searchAllIndicesApp colls k).length ≤ 30) ∧
    (searchAllIndicesPage colls query k).Sorted leScore ∧
      (searchAllIndicesPage colls query k).length ≤ 40 := by
  refine ⟨⟨?_, ?_⟩, ?_, ?_⟩
  · exact (List.sorted_insertionSort leScore _).sublist (List.take_sublist 30 _)
  · simp [searchAllIndicesApp, List.length_take]
  · exact (List.sorted_insertionSort leScore _).sublist (List.take_sublist 40 _)
  · simp [searchAllIndicesPage, searchCorePage, List.length_take]

/-- Evaluation of `app.py`'s priority map at `insights_distribuicao`. -/
theorem priorityMapApp_insights : priorityMapApp "insights_distribuicao" = 1/2 := by
  simp [priorityMapApp]

/-- Evaluation of `app.py`'s priority map at `despesas`. -/
theorem priorityMapApp_despesas : priorityMapApp "despesas" = 2 := by
  simp [priorityMapApp]

/-- Evaluation of the page's priority map at `sumarizacoes`. -/
theorem priorityMapPage_sumarizacoes : priorityMapPage "sumarizacoes" = 1/2 := by
  simp [priorityMapPage]

/-- Evaluation of the page's priority map at `proposicoes`. -/
theorem priorityMapPage_proposicoes : priorityMapPage "proposicoes" = 1 := by
  simp [priorityMapPage]

/-- Evaluation of the page's priority map at `despesas`. -/
theorem priorityMapPage_despesas : priorityMapPage "despesas" = 3 := by
  simp [priorityMapPage]

/-- Evaluation of the page's priority map at `deputados`. -/
theorem priorityMapPage_deputados : priorityMapPage "deputados" = 3 := by
  simp [priorityMapPage]

/-- Evaluation of `app.py`'s priority map at `deputados`. -/
theorem priorityMapApp_deputados : priorityMapApp "deputados" = 2 := by
  simp [priorityMapApp]

/-- C1: concrete run of `app.py`'s `search_all_indices` refuting the fixed
priority convention.  `priority_map` documents `insights_distribuicao` (weight
1/2) as "Maior prioridade (score menor = mais relevante)", yet for the same
raw distance 1 the code computes `adjusted_score = dist / priority`, giving
the high-priority collection score 2 and the low-priority collection
(`despesas`, weight 2) score 1/2, so after the ascending sort the
high-priority hit ranks last, not first. -/
theorem app_equal_distance_priority_reversed :
    priorityMapApp "insights_distribuicao" < priorityMapApp "despesas" ∧
    searchAllIndicesApp
        [⟨"insights_distribuicao", ["I"], 1, [⟨1, 0⟩], false⟩,
         ⟨"despesas", ["D"], 1, [⟨1, 0⟩], false⟩] 10 =
      [⟨"D", 1/2, "despesas"⟩, ⟨"I", 2, "insights_distribuicao"⟩] := by
  constructor
  · rw [priorityMapApp_insights, priorityMapApp_despesas]; norm_num
  · have h5 : (⌊indexKApp 10 "insights_distribuicao"⌋).toNat = 5 := by
      have e : indexKApp 10 "insights_distribuicao" = 5 := by
        rw [indexKApp, priorityMapApp_insights]; norm_num
      rw [e]; decide
    have h20 : (⌊indexKApp 10 "despesas"⌋).toNat = 20 := by
      have e : indexKApp 10 "despesas" = 20 := by
        rw [indexKApp, priorityMapApp_despesas]; norm_num
      rw [e]; decide
    simp [searchAllIndicesApp, collectResultsApp, h5, h20, priorityMapApp_insights,
      priorityMapApp_despesas, List.insertionSort, List.orderedInsert, leScore]
    norm_num

/-- C2 counterexample: in `app.py` the slot budget is `k * priority`, so the
collection configured as most important (`insights_distribuicao`, weight 1/2,
smaller weight = higher priority) requests 5 candidate slots at `base_k = 10`
while the less important `despesas` (weight 2) requests 20 — the more
important collection receives strictly fewer candidate slots. -/
theorem app_slot_scaling_counterexample :
    priorityMapApp "insights_distribuicao" < priorityMapApp "despesas" ∧
    indexKApp 10 "insights_distribuicao" = 5 ∧
    indexKApp 10 "despesas" = 20 ∧
    indexKApp 10 "insights_distribuicao" < indexKApp 10 "despesas" := by
  rw [indexKApp, indexKApp, priorityMapApp_insights, priorityMapApp_despesas]
  norm_num

/-- Every weight in the assistant page's priority map is positive. -/
theorem priorityMapPage_pos (name : String) : 0 < priorityMapPage name := by
  unfold priorityMapPage
  split_ifs <;> norm_num

/-- C2 amended: in the assistant page the slot budget is
`k * (1 + 1/priority)`, and `w ↦ 1 + 1/w` is antitone on the positive
weights, so a collection with a smaller weight (configured more important)
requests at least as many candidate slots as any collection with a larger
weight, for every nonnegative base `k`. -/
theorem page_slot_scaling_antitone (k : ℚ) (n1 n2 : String) (hk : 0 ≤ k)
    (h : priorityMapPage n1 ≤ priorityMapPage n2) :
    indexKPage k n2 ≤ indexKPage k n1 := by
  unfold indexKPage
  refine mul_le_mul_of_nonneg_left ?_ hk
  exact add_le_add_left (one_div_le_one_div_of_le (priorityMapPage_pos n1) h) 1

/-- C2 amended, witness: at `base_k = 10`, the page requests at least as many
slots from `sumarizacoes` (weight 1/2) as from `despesas` (weight 3). -/
theorem page_slot_scaling_antitone_witness :
    (0 : ℚ) ≤ 10 ∧
    priorityMapPage "sumarizacoes" ≤ priorityMapPage "despesas" ∧
    indexKPage 10 "despesas" ≤ indexKPage 10 "sumarizacoes" :=
  ⟨by norm_num,
    by rw [priorityMapPage_sumarizacoes, priorityMapPage_despesas]; norm_num,
    page_slot_scaling_antitone 10 "sumarizacoes" "despesas" (by norm_num)
      (by rw [priorityMapPage_sumarizacoes, priorityMapPage_despesas]; norm_num)⟩

/-- C3 counterexample: a collection whose index stores 3 vectors over a
2-entry document list (`ntotal ≠ len(data)`) is skipped by neither
implementation: both filter hit by hit (`if idx < len(data)`), so the
misaligned collection still contributes the in-range subset of its hits — in
`app.py` 2 results out of the 3 hits taken, in the page 1 result out of the 2
hits taken — instead of contributing zero results. -/
theorem misaligned_collection_not_skipped :
    (⟨"deputados", ["d0", "d1"], 3, [⟨1, 2⟩, ⟨2, 0⟩, ⟨3, 1⟩], false⟩ :
        Collection).ntotal ≠
      (⟨"deputados", ["d0", "d1"], 3, [⟨1, 2⟩, ⟨2, 0⟩, ⟨3, 1⟩], false⟩ :
        Collection).data.length ∧
    collectResultsApp 10
        ⟨"deputados", ["d0", "d1"], 3, [⟨1, 2⟩, ⟨2, 0⟩, ⟨3, 1⟩], false⟩ =
      [⟨"d0", 1, "deputados"⟩, ⟨"d1", 3/2, "deputados"⟩] ∧
    collectResultsPage 10
        ⟨"deputados", ["d0", "d1"], 3, [⟨1, 2⟩, ⟨2, 0⟩, ⟨3, 1⟩], false⟩ =
      [⟨"d0", 6, "deputados"⟩] := by
  refine ⟨by norm_num, ?_, ?_⟩
  · have h20 : (⌊indexKApp 10 "deputados"⌋).toNat = 20 := by
      have e : indexKApp 10 "deputados" = 20 := by
        rw [indexKApp, priorityMapApp_deputados]; norm_num
      rw [e]; decide
    simp [collectResultsApp, h20, priorityMapApp_deputados]
  · have h2 : (⌊min (indexKPage 10 "deputados") (2 : ℚ)⌋).toNat = 2 := by
      have e : min (indexKPage 10 "deputados") (2 : ℚ) = 2 := by
        rw [indexKPage, priorityMapPage_deputados, min_eq_right] ; norm_num
      rw [e]; decide
    simp [collectResultsPage, h2, priorityMapPage_deputados]
    norm_num

/-- C3 amended: no slot-count verification exists in either implementation;
for a non-failing collection the contribution is exactly the in-range subset
of the hits taken from its ranking — a result is contributed precisely when
one of the first `index_k` hits has its slot id within the document list
(with the implementation's own budget and score formula), and the number of
contributed results equals the number of such in-range hits. -/
theorem contribution_exact_subset :
    (∀ (c : Collection) (k : ℚ), c.fails = false →
      (∀ r : SearchResult, r ∈ collectResultsApp k c ↔
        ∃ h ∈ (c.ranking.take (⌊indexKApp k c.name⌋).toNat).filter
            (fun h => decide (h.idx < c.data.length)),
          r = ⟨c.data.getD h.idx "", h.dist / priorityMapApp c.name, c.name⟩) ∧
      (collectResultsApp k c).length =
        ((c.ranking.take (⌊indexKApp k c.name⌋).toNat).filter
          (fun h => decide (h.idx < c.data.length))).length) ∧
    (∀ (c : Collection) (k : ℚ), c.fails = false →
      (∀ r : SearchResult, r ∈ collectResultsPage k c ↔
        ∃ h ∈ (c.ranking.take
              (⌊min (indexKPage k c.name) (c.data.length : ℚ)⌋).toNat).filter
            (fun h => decide (h.idx < c.data.length)),
          r = ⟨c.data.getD h.idx "", h.dist * priorityMapPage c.name, c.name⟩) ∧
      (collectResultsPage k c).length =
        ((c.ranking.take
            (⌊min (indexKPage k c.name) (c.data.length : ℚ)⌋).toNat).filter
          (fun h => decide (h.idx < c.data.length))).length) := by
  constructor
  · intro c k hc
    rw [collectResultsApp, if_neg (by simp [hc])]
    constructor
    · intro r
      simp only [List.mem_map]
      exact ⟨fun ⟨h, hh, he⟩ => ⟨h, hh, he.symm⟩, fun ⟨h, hh, he⟩ => ⟨h, hh, he.symm⟩⟩
    · rw [List.length_map]
  · intro c k hc
    rw [collectResultsPage, if_neg (by simp [hc])]
    constructor
    · intro r
      simp only [List.mem_map]
      exact ⟨fun ⟨h, hh, he⟩ => ⟨h, hh, he.symm⟩, fun ⟨h, hh, he⟩ => ⟨h, hh, he.symm⟩⟩
    · rw [List.length_map]

/-- C3 amended, witness: the exactness characterization instantiated at the
misaligned 3-vector/2-document collection for `app.py`. -/
theorem contribution_exact_subset_witness :
    (∀ r : SearchResult,
        r ∈ collectResultsApp 10
            ⟨"deputados", ["d0", "d1"], 3, [⟨1, 2⟩, ⟨2, 0⟩, ⟨3, 1⟩], false⟩ ↔
          ∃ h ∈ (([⟨1, 2⟩, ⟨2, 0⟩, ⟨3, 1⟩] : List Hit).take
              (⌊indexKApp 10 "deputados"⌋).toNat).filter
              (fun h => decide (h.idx < (["d0", "d1"] : List String).length)),
            r = ⟨(["d0", "d1"] : List String).getD h.idx "",
              h.dist / priorityMapApp "deputados", "deputados"⟩) ∧
    (collectResultsApp 10
        ⟨"deputados", ["d0", "d1"], 3, [⟨1, 2⟩, ⟨2, 0⟩, ⟨3, 1⟩], false⟩).length =
      ((([⟨1, 2⟩, ⟨2, 0⟩, ⟨3, 1⟩] : List Hit).take
          (⌊indexKApp 10 "deputados"⌋).toNat).filter
        (fun h => decide (h.idx < (["d0", "d1"] : List String).length))).length :=
  contribution_exact_subset.1
    ⟨"deputados", ["d0", "d1"], 3, [⟨1, 2⟩, ⟨2, 0⟩, ⟨3, 1⟩], false⟩ 10 rfl

/-- C10: the assistant page inspects the query text itself: when the
lowercased query contains `"proposição"` or `"proposicoes"` the base `k` is
doubled before the per-collection scaling, and otherwise it is left alone; on
a concrete one-collection registry the same `base_k = 1` therefore yields 4
merged results for a query that mentions proposições and only 2 for one that
does not. -/
theorem page_query_doubles_base_k :
    (∀ (colls : List Collection) (query : String) (k : ℚ),
        proposicaoQuery query = true →
          searchAllIndicesPage colls query k = searchCorePage colls (k * 2)) ∧
    (∀ (colls : List Collection) (query : String) (k : ℚ),
        proposicaoQuery query = false →
          searchAllIndicesPage colls query k = searchCorePage colls k) ∧
    (searchAllIndicesPage
        [⟨"proposicoes", ["a", "b", "c", "d"], 4,
          [⟨1, 0⟩, ⟨2, 1⟩, ⟨3, 2⟩, ⟨4, 3⟩], false⟩]
        "detalhe as proposicoes atuais" 1).length = 4 ∧
    (searchAllIndicesPage
        [⟨"proposicoes", ["a", "b", "c", "d"], 4,
          [⟨1, 0⟩, ⟨2, 1⟩, ⟨3, 2⟩, ⟨4, 3⟩], false⟩]
        "quem gastou mais" 1).length = 2 := by
  refine ⟨fun colls query k h => by simp [searchAllIndicesPage, h],
    fun colls query k h => by simp [searchAllIndicesPage, h], ?_, ?_⟩
  · have hq : proposicaoQuery "detalhe as proposicoes atuais" = true := by decide
    have h4 : (⌊min (indexKPage 2 "proposicoes") (4 : ℚ)⌋).toNat = 4 := by
      have e : min (indexKPage 2 "proposicoes") (4 : ℚ) = 4 := by
        rw [indexKPage, priorityMapPage_proposicoes]; norm_num [min_def]
      rw [e]; decide
    simp [searchAllIndicesPage, hq, searchCorePage, collectResultsPage, h4,
      priorityMapPage_proposicoes]
    norm_num [List.insertionSort, List.orderedInsert, leScore, List.length_take]
  · have hq : proposicaoQuery "quem gastou mais" = false := by decide
    have h2 : (⌊min (indexKPage 1 "proposicoes") (4 : ℚ)⌋).toNat = 2 := by
      have e : min (indexKPage 1 "proposicoes") (4 : ℚ) = 2 := by
        rw [indexKPage, priorityMapPage_proposicoes]; norm_num [min_def]
      rw [e]; decide
    simp [searchAllIndicesPage, hq, searchCorePage, collectResultsPage, h2,
      priorityMapPage_proposicoes]
    norm_num [List.insertionSort, List.orderedInsert, leScore, List.length_take]

/-- C10 witness: for a query that does contain `proposicoes`, the page
pipeline runs with the doubled base `k`. -/
theorem page_query_doubles_base_k_witness :
    proposicaoQuery "liste proposicoes" = true ∧
    searchAllIndicesPage [] "liste proposicoes" 10 = searchCorePage [] (10 * 2) :=
  ⟨by decide, page_query_doubles_base_k.1 [] "liste proposicoes" 10 (by decide)⟩

/-- Entry of the `formatted_parts` list built by `format_context`: either a
group header line or one document text (the Python code appends both into one
flat list of strings and joins them; the tag records which entries are the
headers). -/
inductive CtxPart where
  | header (text : String)
  | doc (text : String)
deriving DecidableEq

/-- Python `source.upper()`, character-wise. -/
def pyUpper (s : String) : String := String.mk (s.data.map Char.toUpper)

/-- Key insertion of the Python dict `context_by_source`: a new key is
appended after the existing ones (insertion order), an existing key keeps its
position. -/
def insertKey (acc : List String) (s : String) : List String :=
  if s ∈ acc then acc else acc ++ [s]

/-- Keys of `context_by_source` in insertion order, i.e. in order of each
source's first occurrence in the result list. -/
def keysInOrder (results : List SearchResult) : List String :=
  results.foldl (fun acc r => insertKey acc r.source) []

/-- Value list `context_by_source[s]`: the texts of the results from source
`s`, preserving their rank order in the input list. -/
def groupTexts (results : List SearchResult) (s : String) : List String :=
  (results.filter (fun r => decide (r.source = s))).map (fun r => r.text)

/-- Sources that `app.py`'s `format_context` emits ahead of the generic
loop, in their hard-coded order. -/
def fixedApp : List String :=
  ["insights_distribuicao", "insights_despesas", "sumarizacoes"]

/-- Group header emitted by `app.py` for source `s`. -/
def headerApp (s : String) : String :=
  if s = "insights_distribuicao" then
    "\n=== DISTRIBUIÇÃO PARTIDÁRIA (ANÁLISE GERAL) ===\n"
  else if s = "insights_despesas" ∨ s = "sumarizacoes" then
    "\n=== " ++ pyUpper s ++ " ===\n"
  else "\n=== DADOS ESPECÍFICOS: " ++ pyUpper s ++ " ===\n"

/-- Order in which `format_context` visits the present sources: the
hard-coded priority names that are present (each deleted from the dict once
emitted), then every remaining key in dict insertion order. -/
def orderedKeys (fixed keys : List String) : List String :=
  fixed.filter (fun s => decide (s ∈ keys)) ++
    keys.filter (fun s => !decide (s ∈ fixed))

/-- Ordered (header, texts) groups emitted by `app.py`'s `format_context`. -/
def groupBlocksApp (results : List SearchResult) : List (String × List String) :=
  (orderedKeys fixedApp (keysInOrder results)).map
    (fun s => (headerApp s, groupTexts results s))

/-- Serialization of one group: its header followed by its texts, exactly as
`formatted_parts.append(header)` / `formatted_parts.extend(texts)` does. -/
def blockParts (g : String × List String) : List CtxPart :=
  CtxPart.header g.1 :: g.2.map CtxPart.doc

/-- Function `format_context` of `app.py`, at the granularity of the
`formatted_parts` list (the final `"\n".join` is abstracted away). -/
def formatContextApp (results : List SearchResult) : List CtxPart :=
  (groupBlocksApp results).flatMap blockParts

/-- Sources that the assistant page's `format_context` emits ahead of the
generic loop, in their hard-coded order. -/
def fixedPage : List String :=
  ["sumarizacoes", "proposicoes", "insights_distribuicao", "insights_despesas"]

/-- Group header emitted by the assistant page for source `s`. -/
def headerPage (s : String) : String :=
  if s = "sumarizacoes" then "\n=== SUMARIZAÇÕES DE PROPOSIÇÕES ===\n"
  else if s = "proposicoes" then "\n=== PROPOSIÇÕES ESPECÍFICAS ===\n"
  else if s = "insights_distribuicao" ∨ s = "insights_despesas" then
    "\n=== INSIGHTS: " ++ pyUpper s ++ " ===\n"
  else "\n=== DADOS COMPLEMENTARES: " ++ pyUpper s ++ " ===\n"

/-- Ordered (header, texts) groups emitted by the page's `format_context`. -/
def groupBlocksPage (results : List SearchResult) : List (String × List String) :=
  (orderedKeys fixedPage (keysInOrder results)).map
    (fun s => (headerPage s, groupTexts results s))

/-- Function `format_context` of `01_Assistente_Virtual.py`, at the
granularity of the `formatted_parts` list. -/
def formatContextPage (results : List SearchResult) : List CtxPart :=
  (groupBlocksPage results).flatMap blockParts

/-- Document texts of a part list, in order, headers dropped. -/
def docTexts (parts : List CtxPart) : List String :=
  parts.filterMap (fun p =>
    match p with
    | CtxPart.doc t => some t
    | CtxPart.header _ => none)

/-- Group header lines of a part list, in order, documents dropped. -/
def headerTexts (parts : List CtxPart) : List String :=
  parts.filterMap (fun p =>
    match p with
    | CtxPart.header t => some t
    | CtxPart.doc _ => none)

/-- Check that every header is followed by at least one document before the
next header or the end of the list: no group is emitted empty. -/
def noEmptyGroups : List CtxPart → Bool
  | [] => true
  | CtxPart.doc _ :: rest => noEmptyGroups rest
  | CtxPart.header _ :: CtxPart.doc t :: rest => noEmptyGroups (CtxPart.doc t :: rest)
  | CtxPart.header _ :: _ => false

/-- Dataclass `SubQuestion` of `app/utils/self_ask.py` (fields `question`,
`context`, `answer = None`, `confidence = 0.0`). -/
structure SubQuestion where
  question : String
  context : String
  answer : Option String
  confidence : ℚ
deriving DecidableEq

/-- Keyword → template catalog `question_patterns` of
`SelfAskAssistant.decompose_question`, in Python dict insertion order. -/
def questionPatterns : List (String × List SubQuestion) :=
  [("partido",
    [⟨"Quais são todos os partidos representados?", "distribuição partidária",
      none, 0⟩,
     ⟨"Qual é o número de deputados por partido?", "contagem por partido",
      none, 0⟩]),
   ("despesa",
    [⟨"Quais são os tipos de despesas registrados?", "categorias de despesas",
      none, 0⟩,
     ⟨"Qual é o valor total por tipo de despesa?", "soma por categoria",
      none, 0⟩]),
   ("proposição",
    [⟨"Quais são as proposições relacionadas ao tema?", "busca por tema",
      none, 0⟩,
     ⟨"Quais são os principais pontos dessas proposições?",
      "análise de conteúdo", none, 0⟩])]

/-- Generic fallback of `decompose_question` when no catalog keyword occurs
in the lowercased question. -/
def genericSubQuestions : List SubQuestion :=
  [⟨"Qual é o contexto geral da pergunta?", "contexto geral", none, 0⟩,
   ⟨"Quais dados são relevantes para esta pergunta?", "dados relevantes",
    none, 0⟩]

/-- Method `SelfAskAssistant.decompose_question` of `app/utils/self_ask.py`:
the first catalog entry whose keyword occurs in the lowercased question wins;
otherwise the generic two-sub-question fallback is returned. -/
def decompose_question (question : String) : List SubQuestion :=
  match questionPatterns.find? (fun p => pyIn p.1 question) with
  | some p => p.2
  | none => genericSubQuestions

/-- Keyword → sub-question catalog `subperguntas` of
`SelfAskAssistant._gerar_subperguntas` in `utils/self_ask.py`. -/
def subperguntasCatalogo : List (String × List String) :=
  [("partido",
    ["Quais são todos os partidos representados?",
     "Quantos deputados cada partido tem?",
     "Qual partido tem mais representantes?"]),
   ("despesas",
    ["Quais são os tipos de despesas registrados?",
     "Qual o valor total por deputado?",
     "Quais são as despesas mais comuns?"]),
   ("proposicoes",
    ["Qual o tema da proposição?",
     "Quais são as palavras-chave relevantes?",
     "Existem proposições similares?"])]

/-- Method `SelfAskAssistant._gerar_subperguntas` of `utils/self_ask.py`:
first matching catalog entry, else a single clarification question. -/
def gerar_subperguntas (pergunta : String) : List String :=
  match subperguntasCatalogo.find? (fun p => pyIn p.1 pergunta) with
  | some p => p.2
  | none => ["Poderia especificar melhor sua pergunta?"]

/-- One entry of the result list of `EmbeddingManager.search` in
`app/utils/embedding_utils.py`: a text and its raw FAISS L2 distance stored
under the key `score`. -/
structure UtilResult where
  text : String
  score : ℚ
deriving DecidableEq

/-- Python `min` over a list of rationals (0 on the empty list, which Python
would reject; all uses below are guarded by non-emptiness, exactly as the
code guards `min(...)` with `if results`). -/
def minQ : List ℚ → ℚ
  | [] => 0
  | [x] => x
  | x :: y :: rest => min x (minQ (y :: rest))

/-- Confidence computed by `SelfAskAssistant.answer_sub_question` in
`app/utils/self_ask.py`: `1.0 - min(r['score'] for r in results)` when
results exist, `0.0` otherwise. -/
def answerSubQuestionConfidence (results : List UtilResult) : ℚ :=
  if results.isEmpty then 0
  else 1 - minQ (results.map (fun r => r.score))

/-- One entry of the result list of `EmbeddingManager.buscar_similares` in
`app/utils/embeddings.py` (the missing `utils/embeddings.py` twin consumed by
`utils/self_ask.py` is modelled on it and on §4.2 of the specification):
a text and its raw FAISS distance under the key `distancia`. -/
structure Resultado where
  texto : String
  distancia : ℚ
deriving DecidableEq

/-- Confidence computed by `SelfAskAssistant._buscar_contexto` in
`utils/self_ask.py`:
`1.0 / (1.0 + resultados[0]["distancia"]) if resultados else 0`. -/
def confianca (resultados : List Resultado) : ℚ :=
  match resultados with
  | [] => 0
  | r :: _ => 1 / (1 + r.distancia)

/-- Python's `min` of a non-empty list is one of its elements. -/
theorem minQ_mem : ∀ (l : List ℚ), l ≠ [] → minQ l ∈ l := by
  intro l
  induction l with
  | nil => simp
  | cons x rest ih =>
    intro _
    cases rest with
    | nil => simp [minQ]
    | cons y t =>
      rcases le_total x (minQ (y :: t)) with h | h
      · simp [minQ, min_eq_left h]
      · have hm := ih (by simp)
        rw [minQ, min_eq_right h]
        exact List.mem_cons_of_mem x hm

/-- Python's `min` of a list whose head bounds the tail is the head. -/
theorem minQ_cons_of_le (x : ℚ) (l : List ℚ) (h : ∀ y ∈ l, x ≤ y) :
    minQ (x :: l) = x := by
  cases l with
  | nil => simp [minQ]
  | cons y t =>
    have hx : x ≤ minQ (y :: t) := h _ (minQ_mem _ (by simp))
    rw [minQ, min_eq_left hx]

/-- C6 counterexample: `answer_sub_question` in `app/utils/self_ask.py`
computes `1.0 - min(scores)`, not `1/(1 + best)`: on a single retrieved
result of raw L2 distance 2 the confidence is `-1`, which differs from
`1/(1+2)` and lies outside `[0, 1]`. -/
theorem app_utils_confidence_counterexample :
    answerSubQuestionConfidence [⟨"t", 2⟩] = -1 ∧
    ¬ answerSubQuestionConfidence [⟨"t", 2⟩] = 1 / (1 + 2) ∧
    ¬ 0 ≤ answerSubQuestionConfidence [⟨"t", 2⟩] := by
  have e : answerSubQuestionConfidence [⟨"t", 2⟩] = -1 := by
    rw [answerSubQuestionConfidence]
    norm_num [minQ]
  refine ⟨e, by rw [e]; norm_num, by rw [e]; norm_num⟩

/-- C6 amended: `utils/self_ask.py` computes `1/(1 + d₀)` from the first
retrieved result's distance; when the retrieved evidence is ascending by
distance (as the FAISS index returns it) and the best distance is
nonnegative, this equals `1/(1 + best_distance)` and lies in `[0, 1]`.  The
`app/utils/self_ask.py` variant instead computes `1 - best_score`, which is
at most 1 for nonnegative scores but is not clamped below (see the
counterexample). -/
theorem confidence_formulas :
    (∀ (r : Resultado) (rs : List Resultado),
        (r :: rs).Pairwise (fun a b => a.distancia ≤ b.distancia) →
        0 ≤ r.distancia →
          confianca (r :: rs) =
              1 / (1 + minQ ((r :: rs).map (fun x => x.distancia))) ∧
            0 ≤ confianca (r :: rs) ∧ confianca (r :: rs) ≤ 1) ∧
    (∀ results : List UtilResult, (∀ r ∈ results, 0 ≤ r.score) →
        answerSubQuestionConfidence results ≤ 1) := by
  constructor
  · intro r rs hp hd
    have hmin : minQ ((r :: rs).map (fun x => x.distancia)) = r.distancia := by
      rw [List.map_cons]
      refine minQ_cons_of_le _ _ ?_
      intro y hy
      obtain ⟨a, ha, rfl⟩ := List.mem_map.mp hy
      exact (List.pairwise_cons.mp hp).1 a ha
    have hpos : 0 < 1 + r.distancia := by linarith
    refine ⟨by rw [confianca, hmin], ?_, ?_⟩
    · rw [confianca]
      positivity
    · rw [confianca]
      rw [div_le_one hpos]
      linarith
  · intro results h
    cases results with
    | nil => rw [answerSubQuestionConfidence]; norm_num
    | cons r rs =>
      rw [answerSubQuestionConfidence, if_neg (by simp)]
      have hne : ((r :: rs).map (fun x => x.score)) ≠ [] := by simp
      obtain ⟨a, ha, he⟩ := List.mem_map.mp (minQ_mem _ hne)
      have h0 : 0 ≤ minQ ((r :: rs).map (fun x => x.score)) := by
        rw [← he] at *
        exact h a ha
      linarith

/-- C6 amended, witness: one retrieved result at distance 1 gives confidence
`1/(1+1) = 1/2 ∈ [0,1]` in the `utils` variant, and one retrieved result of
score 1/2 keeps the `app/utils` confidence at most 1. -/
theorem confidence_formulas_witness :
    ((⟨"x", 1⟩ :: ([] : List Resultado)).Pairwise
        (fun a b => a.distancia ≤ b.distancia) ∧
      (0 : ℚ) ≤ (⟨"x", 1⟩ : Resultado).distancia ∧
      (confianca [⟨"x", 1⟩] =
          1 / (1 + minQ (([⟨"x", 1⟩] : List Resultado).map
            (fun x => x.distancia))) ∧
        0 ≤ confianca [⟨"x", 1⟩] ∧ confianca [⟨"x", 1⟩] ≤ 1)) ∧
    (∀ r ∈ ([⟨"t", 1/2⟩] : List UtilResult), 0 ≤ r.score) ∧
    answerSubQuestionConfidence [⟨"t", 1/2⟩] ≤ 1 :=
  ⟨⟨by simp, by norm_num,
      confidence_formulas.1 ⟨"x", 1⟩ [] (by simp) (by norm_num)⟩,
    by norm_num,
    confidence_formulas.2 [⟨"t", 1/2⟩] (by norm_num)⟩

/-- C7 counterexample: in `utils/self_ask.py` an uncataloged question falls
back to a single clarification question, not to two generic sub-questions. -/
theorem utils_fallback_single_question :
    gerar_subperguntas "ola" = ["Poderia especificar melhor sua pergunta?"] ∧
    (gerar_subperguntas "ola").length ≠ 2 := by
  constructor
  · decide
  · decide

/-- C7 amended: in both modules the first catalog entry whose keyword occurs
in the lowercased question yields exactly that entry's fixed sub-question
set — in `app/utils/self_ask.py` the tagged pairs for `partido`, `despesa`,
`proposição`, in `utils/self_ask.py` the three plain questions for `partido`,
`despesas`, `proposicoes`.  When no keyword occurs, `app/utils` returns
exactly the two generic fallback sub-questions (general context, relevant
data), as the claim states, but `utils` returns one clarification question,
not two. -/
theorem decomposition_catalog_and_fallbacks :
    (∀ q, pyIn "partido" q = true →
        decompose_question q =
            [⟨"Quais são todos os partidos representados?",
              "distribuição partidária", none, 0⟩,
             ⟨"Qual é o número de deputados por partido?",
              "contagem por partido", none, 0⟩] ∧
          gerar_subperguntas q =
            ["Quais são todos os partidos representados?",
             "Quantos deputados cada partido tem?",
             "Qual partido tem mais representantes?"]) ∧
    (∀ q, pyIn "partido" q = false → pyIn "despesa" q = true →
        decompose_question q =
          [⟨"Quais são os tipos de despesas registrados?",
            "categorias de despesas", none, 0⟩,
           ⟨"Qual é o valor total por tipo de despesa?",
            "soma por categoria", none, 0⟩]) ∧
    (∀ q, pyIn "partido" q = false → pyIn "despesa" q = false →
        pyIn "proposição" q = true →
        decompose_question q =
          [⟨"Quais são as proposições relacionadas ao tema?",
            "busca por tema", none, 0⟩,
           ⟨"Quais são os principais pontos dessas proposições?",
            "análise de conteúdo", none, 0⟩]) ∧
    (∀ q, pyIn "partido" q = false → pyIn "despesas" q = true →
        gerar_subperguntas q =
          ["Quais são os tipos de despesas registrados?",
           "Qual o valor total por deputado?",
           "Quais são as despesas mais comuns?"]) ∧
    (∀ q, pyIn "partido" q = false → pyIn "despesas" q = false →
        pyIn "proposicoes" q = true →
        gerar_subperguntas q =
          ["Qual o tema da proposição?",
           "Quais são as palavras-chave relevantes?",
           "Existem proposições similares?"]) ∧
    (∀ q, (∀ p ∈ questionPatterns, pyIn p.1 q = false) →
        decompose_question q = genericSubQuestions ∧
          (decompose_question q).length = 2) ∧
    (∀ q, (∀ p ∈ subperguntasCatalogo, pyIn p.1 q = false) →
        gerar_subperguntas q = ["Poderia especificar melhor sua pergunta?"] ∧
          (gerar_subperguntas q).length = 1) := by
  refine ⟨?_, ?_, ?_, ?_, ?_, ?_, ?_⟩
  · intro q h
    constructor
    · simp [decompose_question, questionPatterns, List.find?, h]
    · simp [gerar_subperguntas, subperguntasCatalogo, List.find?, h]
  · intro q h1 h2
    simp [decompose_question, questionPatterns, List.find?, h1, h2]
  · intro q h1 h2 h3
    simp [decompose_question, questionPatterns, List.find?, h1, h2, h3]
  · intro q h1 h2
    simp [gerar_subperguntas, subperguntasCatalogo, List.find?, h1, h2]
  · intro q h1 h2 h3
    simp [gerar_subperguntas, subperguntasCatalogo, List.find?, h1, h2, h3]
  · intro q h
    rw [questionPatterns] at h
    simp only [List.forall_mem_cons, List.forall_mem_nil, and_true] at h
    obtain ⟨h1, h2, h3⟩ := h
    constructor
    · simp [decompose_question, questionPatterns, List.find?, h1, h2, h3]
    · simp [decompose_question, questionPatterns, List.find?, h1, h2, h3,
        genericSubQuestions]
  · intro q h
    rw [subperguntasCatalogo] at h
    simp only [List.forall_mem_cons, List.forall_mem_nil, and_true] at h
    obtain ⟨h1, h2, h3⟩ := h
    constructor
    · simp [gerar_subperguntas, subperguntasCatalogo, List.find?, h1, h2, h3]
    · simp [gerar_subperguntas, subperguntasCatalogo, List.find?, h1, h2, h3]

/-- C7 amended, witness: one concrete question per catalog entry of each
module — for "partido", "despesa", "proposição", "despesas" and
"proposicoes" — plus the uncataloged question "bom dia" for both
fallbacks. -/
theorem decomposition_catalog_and_fallbacks_witness :
    (decompose_question "qual partido tem mais deputados" =
        [⟨"Quais são todos os partidos representados?",
          "distribuição partidária", none, 0⟩,
         ⟨"Qual é o número de deputados por partido?",
          "contagem por partido", none, 0⟩] ∧
      gerar_subperguntas "qual partido tem mais deputados" =
        ["Quais são todos os partidos representados?",
         "Quantos deputados cada partido tem?",
         "Qual partido tem mais representantes?"]) ∧
    decompose_question "maior despesa" =
      [⟨"Quais são os tipos de despesas registrados?",
        "categorias de despesas", none, 0⟩,
       ⟨"Qual é o valor total por tipo de despesa?",
        "soma por categoria", none, 0⟩] ∧
    decompose_question "qual proposição" =
      [⟨"Quais são as proposições relacionadas ao tema?",
        "busca por tema", none, 0⟩,
       ⟨"Quais são os principais pontos dessas proposições?",
        "análise de conteúdo", none, 0⟩] ∧
    gerar_subperguntas "quais despesas existem" =
      ["Quais são os tipos de despesas registrados?",
       "Qual o valor total por deputado?",
       "Quais são as despesas mais comuns?"] ∧
    gerar_subperguntas "liste proposicoes" =
      ["Qual o tema da proposição?",
       "Quais são as palavras-chave relevantes?",
       "Existem proposições similares?"] ∧
    (decompose_question "bom dia" = genericSubQuestions ∧
      (decompose_question "bom dia").length = 2) ∧
    (gerar_subperguntas "bom dia" = ["Poderia especificar melhor sua pergunta?"] ∧
      (gerar_subperguntas "bom dia").length = 1) :=
  ⟨decomposition_catalog_and_fallbacks.1 "qual partido tem mais deputados"
      (by decide),
    decomposition_catalog_and_fallbacks.2.1 "maior despesa" (by decide)
      (by decide),
    decomposition_catalog_and_fallbacks.2.2.1 "qual proposição" (by decide)
      (by decide) (by decide),
    decomposition_catalog_and_fallbacks.2.2.2.1 "quais despesas existem"
      (by decide) (by decide),
    decomposition_catalog_and_fallbacks.2.2.2.2.1 "liste proposicoes"
      (by decide) (by decide) (by decide),
    decomposition_catalog_and_fallbacks.2.2.2.2.2.1 "bom dia" (by decide),
    decomposition_catalog_and_fallbacks.2.2.2.2.2.2 "bom dia" (by decide)⟩

/-- Membership in a dict-key insertion step. -/
theorem mem_insertKey (acc : List String) (x s : String) :
    s ∈ insertKey acc x ↔ s ∈ acc ∨ s = x := by
  unfold insertKey
  by_cases h : x ∈ acc
  · rw [if_pos h]
    exact ⟨Or.inl, fun h2 => h2.elim id (fun e => e ▸ h)⟩
  · rw [if_neg h]
    simp

/-- Membership after folding insertion steps over a result list. -/
theorem foldl_insertKey_mem (l : List SearchResult) (s : String) :
    ∀ acc, s ∈ l.foldl (fun a r => insertKey a r.source) acc ↔
      s ∈ acc ∨ s ∈ l.map (fun r => r.source) := by
  induction l with
  | nil => intro acc; simp
  | cons r t ih =>
    intro acc
    rw [List.foldl_cons, ih, mem_insertKey]
    simp only [List.map_cons, List.mem_cons]
    tauto

/-- A source is a dict key exactly when some result carries it. -/
theorem mem_keysInOrder (results : List SearchResult) (s : String) :
    s ∈ keysInOrder results ↔ s ∈ results.map (fun r => r.source) := by
  rw [keysInOrder, foldl_insertKey_mem]
  simp

/-- Key insertion preserves distinctness of the key list. -/
theorem insertKey_nodup {acc : List String} (h : acc.Nodup) (x : String) :
    (insertKey acc x).Nodup := by
  unfold insertKey
  by_cases hx : x ∈ acc
  · rwa [if_pos hx]
  · rw [if_neg hx]
    exact h.append (List.nodup_singleton x)
      (fun a ha hb => hx ((List.mem_singleton.mp hb) ▸ ha))

/-- The dict keys are pairwise distinct. -/
theorem keysInOrder_nodup (results : List SearchResult) :
    (keysInOrder results).Nodup := by
  rw [keysInOrder]
  suffices h : ∀ acc : List String, acc.Nodup →
      (results.foldl (fun a r => insertKey a r.source) acc).Nodup by
    exact h [] List.nodup_nil
  intro acc
  induction results generalizing acc with
  | nil => intro h; simpa using h
  | cons r t ih =>
    intro h
    rw [List.foldl_cons]
    exact ih _ (insertKey_nodup h _)

/-- A present source has a non-empty text group. -/
theorem groupTexts_ne_nil {results : List SearchResult} {s : String}
    (h : s ∈ results.map (fun r => r.source)) : groupTexts results s ≠ [] := by
  obtain ⟨r, hr, rfl⟩ := List.mem_map.mp h
  intro hnil
  rw [groupTexts, List.map_eq_nil_iff, List.filter_eq_nil_iff] at hnil
  exact hnil r hr (by simp)

/-- The emission order contains only present sources. -/
theorem mem_of_mem_orderedKeys {fixed keys : List String} {s : String}
    (h : s ∈ orderedKeys fixed keys) : s ∈ keys := by
  rw [orderedKeys, List.mem_append] at h
  rcases h with h | h
  · exact of_decide_eq_true (List.mem_filter.mp h).2
  · exact (List.mem_filter.mp h).1

/-- Every present source is emitted. -/
theorem orderedKeys_cover {fixed keys : List String} {s : String}
    (hs : s ∈ keys) : s ∈ orderedKeys fixed keys := by
  rw [orderedKeys, List.mem_append]
  by_cases hf : s ∈ fixed
  · exact Or.inl (List.mem_filter.mpr ⟨hf, by simpa using hs⟩)
  · exact Or.inr (List.mem_filter.mpr ⟨hs, by simpa using hf⟩)

/-- The emission order never repeats a source. -/
theorem orderedKeys_nodup {fixed keys : List String} (hf : fixed.Nodup)
    (hk : keys.Nodup) : (orderedKeys fixed keys).Nodup := by
  rw [orderedKeys]
  refine (hf.filter _).append (hk.filter _) ?_
  intro a ha hb
  have h1 : a ∈ fixed := (List.mem_filter.mp ha).1
  have h2 := (List.mem_filter.mp hb).2
  simp at h2
  exact h2 h1

/-- The dict keys ignore the score field of the results. -/
theorem keysInOrder_score_update (f : SearchResult → ℚ)
    (results : List SearchResult) :
    keysInOrder (results.map (fun r => ⟨r.text, f r, r.source⟩)) =
      keysInOrder results := by
  rw [keysInOrder, keysInOrder]
  suffices h : ∀ acc,
      (results.map (fun r => (⟨r.text, f r, r.source⟩ : SearchResult))).foldl
          (fun a r => insertKey a r.source) acc =
        results.foldl (fun a r => insertKey a r.source) acc by
    exact h []
  intro acc
  induction results generalizing acc with
  | nil => rfl
  | cons r t ih => simp [List.foldl_cons, ih]

/-- The per-source text groups ignore the score field of the results. -/
theorem groupTexts_score_update (f : SearchResult → ℚ)
    (results : List SearchResult) (s : String) :
    groupTexts (results.map (fun r => ⟨r.text, f r, r.source⟩)) s =
      groupTexts results s := by
  induction results with
  | nil => rfl
  | cons r t ih =>
    simp only [groupTexts, List.map_cons, List.filter_cons] at ih ⊢
    by_cases h : r.source = s
    · simp [h, ih]
    · simp [h, ih]

/-- Serialization equation: a document entry passes through unchanged. -/
theorem noEmptyGroups_doc (t : String) (rest : List CtxPart) :
    noEmptyGroups (CtxPart.doc t :: rest) = noEmptyGroups rest := rfl

/-- Serialization equation: a header followed by a document is accepted. -/
theorem noEmptyGroups_header_doc (h1 t : String) (rest : List CtxPart) :
    noEmptyGroups (CtxPart.header h1 :: CtxPart.doc t :: rest) =
      noEmptyGroups (CtxPart.doc t :: rest) := rfl

/-- A run of document entries does not affect the empty-group check. -/
theorem noEmptyGroups_docs_append (ds : List String) (rest : List CtxPart) :
    noEmptyGroups (ds.map CtxPart.doc ++ rest) = noEmptyGroups rest := by
  induction ds with
  | nil => rfl
  | cons d t ih =>
    rw [List.map_cons, List.cons_append, noEmptyGroups_doc, ih]

/-- Serializing groups whose text lists are all non-empty never leaves a
header without at least one following document. -/
theorem noEmptyGroups_blocks (gs : List (String × List String))
    (h : ∀ g ∈ gs, g.2 ≠ []) : noEmptyGroups (gs.flatMap blockParts) = true := by
  induction gs with
  | nil => rfl
  | cons g t ih =>
    have hg := h g (List.mem_cons_self g t)
    obtain ⟨d, ds, hds⟩ : ∃ d ds, g.2 = d :: ds := by
      cases hgg : g.2 with
      | nil => exact absurd hgg hg
      | cons a l => exact ⟨a, l, rfl⟩
    rw [List.flatMap_cons, blockParts, hds, List.map_cons, List.cons_append,
      List.cons_append, noEmptyGroups_header_doc, noEmptyGroups_doc,
      noEmptyGroups_docs_append]
    exact ih (fun g2 hg2 => h g2 (List.mem_cons_of_mem _ hg2))

/-- The documents of serialized groups are the concatenation of the group
text lists, headers dropped. -/
theorem docTexts_flatMap_blocks (gs : List (String × List String)) :
    docTexts (gs.flatMap blockParts) = gs.flatMap (fun g => g.2) := by
  induction gs with
  | nil => rfl
  | cons g t ih =>
    rw [List.flatMap_cons, List.flatMap_cons, blockParts]
    simp only [docTexts] at ih ⊢
    rw [List.cons_append, List.filterMap_cons_none (by rfl), List.filterMap_append,
      ih, List.filterMap_map]
    congr 1
    have comp : ((fun p =>
        match p with
        | CtxPart.doc t => some t
        | CtxPart.header _ => none) ∘ CtxPart.doc) = some := by
      funext x; rfl
    rw [comp, List.filterMap_some]

/-- Unfolding equation: a header entry contributes its header line. -/
theorem headerTexts_header_cons (h1 : String) (rest : List CtxPart) :
    headerTexts (CtxPart.header h1 :: rest) = h1 :: headerTexts rest := rfl

/-- Unfolding equation: a document entry contributes no header line. -/
theorem headerTexts_doc_cons (d : String) (rest : List CtxPart) :
    headerTexts (CtxPart.doc d :: rest) = headerTexts rest := rfl

/-- A run of document entries contributes no header lines. -/
theorem headerTexts_docs_append (ds : List String) (rest : List CtxPart) :
    headerTexts (ds.map CtxPart.doc ++ rest) = headerTexts rest := by
  induction ds with
  | nil => rfl
  | cons d t ih =>
    rw [List.map_cons, List.cons_append, headerTexts_doc_cons, ih]

/-- The header lines of serialized groups are the group headers, in group
order. -/
theorem headerTexts_flatMap_blocks (gs : List (String × List String)) :
    headerTexts (gs.flatMap blockParts) = gs.map (fun g => g.1) := by
  induction gs with
  | nil => rfl
  | cons g t ih =>
    rw [List.flatMap_cons, blockParts, List.cons_append, headerTexts_header_cons,
      headerTexts_docs_append, ih, List.map_cons]

/-- Congruence of `flatMap` over members. -/
theorem flatMap_congr_mem {α β : Type} (l : List α) {f g : α → List β}
    (h : ∀ a ∈ l, f a = g a) : l.flatMap f = l.flatMap g := by
  induction l with
  | nil => rfl
  | cons a t ih =>
    rw [List.flatMap_cons, List.flatMap_cons, h a (List.mem_cons_self a t),
      ih (fun b hb => h b (List.mem_cons_of_mem _ hb))]

/-- Splitting a result list along a duplicate-free covering key list, source
by source, permutes the list: every result lands in exactly one group. -/
theorem partition_perm : ∀ (keys : List String) (l : List SearchResult),
    keys.Nodup → (∀ r ∈ l, r.source ∈ keys) →
    List.Perm
      (keys.flatMap (fun s => l.filter (fun r => decide (r.source = s)))) l := by
  intro keys
  induction keys with
  | nil =>
    intro l _ hcov
    cases l with
    | nil => simp
    | cons r t => exact absurd (hcov r (List.mem_cons_self r t)) (by simp)
  | cons k ks ih =>
    intro l hnd hcov
    rw [List.flatMap_cons]
    have hk : k ∉ ks := (List.nodup_cons.mp hnd).1
    have hstep : ∀ s ∈ ks,
        l.filter (fun r => decide (r.source = s)) =
          (l.filter (fun r => !decide (r.source = k))).filter
            (fun r => decide (r.source = s)) := by
      intro s hs
      rw [List.filter_filter]
      refine List.filter_congr ?_
      intro a _
      by_cases h : a.source = s
      · have hsk : s ≠ k := fun e => hk (e ▸ hs)
        simp [h, hsk]
      · simp [h]
    rw [flatMap_congr_mem ks hstep]
    have hcov2 : ∀ r ∈ l.filter (fun r => !decide (r.source = k)),
        r.source ∈ ks := by
      intro r hr
      obtain ⟨hrl, hrk⟩ := List.mem_filter.mp hr
      rcases List.mem_cons.mp (hcov r hrl) with h | h
      · exact absurd h (by simpa using hrk)
      · exact h
    have hperm := ih (l.filter (fun r => !decide (r.source = k)))
      (List.nodup_cons.mp hnd).2 hcov2
    exact (List.Perm.append_left _ hperm).trans (List.filter_append_perm _ l)

/-- Documents of `app.py`'s assembled context, as the flattened grouping of
the input by source along the fixed emission order. -/
theorem docTexts_formatContextApp (results : List SearchResult) :
    docTexts (formatContextApp results) =
      ((orderedKeys fixedApp (keysInOrder results)).flatMap
        (fun s => results.filter (fun r => decide (r.source = s)))).map
        (fun r => r.text) := by
  rw [formatContextApp, docTexts_flatMap_blocks, groupBlocksApp,
    List.flatMap_map, List.map_flatMap]
  rfl

/-- Documents of the page's assembled context, flattened likewise. -/
theorem docTexts_formatContextPage (results : List SearchResult) :
    docTexts (formatContextPage results) =
      ((orderedKeys fixedPage (keysInOrder results)).flatMap
        (fun s => results.filter (fun r => decide (r.source = s)))).map
        (fun r => r.text) := by
  rw [formatContextPage, docTexts_flatMap_blocks, groupBlocksPage,
    List.flatMap_map, List.map_flatMap]
  rfl

/-- Grouping the input along either emission order is a permutation. -/
theorem orderedKeys_partition (results : List SearchResult)
    (fixed : List String) (hf : fixed.Nodup) :
    List.Perm
      ((orderedKeys fixed (keysInOrder results)).flatMap
        (fun s => results.filter (fun r => decide (r.source = s)))) results := by
  refine partition_perm _ _ (orderedKeys_nodup hf (keysInOrder_nodup results)) ?_
  intro r hr
  exact orderedKeys_cover
    ((mem_keysInOrder results r.source).mpr (List.mem_map_of_mem _ hr))

/-- C8 counterexample: the assistant page's `format_context` emits the
granular per-record group `proposicoes` (header "PROPOSIÇÕES ESPECÍFICAS")
strictly before the aggregate insight group `insights_distribuicao`, so its
fixed order is not aggregate-first/thematic-next/granular-last. -/
theorem page_group_order_counterexample :
    formatContextPage
        [⟨"p1", 1, "proposicoes"⟩, ⟨"i1", 2, "insights_distribuicao"⟩] =
      [CtxPart.header "\n=== PROPOSIÇÕES ESPECÍFICAS ===\n", CtxPart.doc "p1",
       CtxPart.header "\n=== INSIGHTS: INSIGHTS_DISTRIBUICAO ===\n",
       CtxPart.doc "i1"] := by
  decide

/-- C8 amended: each implementation of `format_context` emits its groups in
its own hard-coded source order, blind to the adjusted scores (replacing
every score leaves the output unchanged), and a group with zero selected
results is omitted entirely — every emitted header is immediately followed by
at least one document.  The hard-coded order is aggregate-insights first,
summaries next, per-record data last only in `app.py`; the page puts
summaries and specific propositions ahead of the insight groups. -/
theorem context_groups_score_blind_and_nonempty :
    (∀ (results : List SearchResult) (f : SearchResult → ℚ),
        formatContextApp (results.map (fun r => ⟨r.text, f r, r.source⟩)) =
            formatContextApp results ∧
          formatContextPage (results.map (fun r => ⟨r.text, f r, r.source⟩)) =
            formatContextPage results) ∧
    (∀ results : List SearchResult,
        noEmptyGroups (formatContextApp results) = true ∧
        noEmptyGroups (formatContextPage results) = true) := by
  constructor
  · intro results f
    constructor
    · rw [formatContextApp, formatContextApp, groupBlocksApp, groupBlocksApp,
        keysInOrder_score_update]
      simp only [groupTexts_score_update]
    · rw [formatContextPage, formatContextPage, groupBlocksPage, groupBlocksPage,
        keysInOrder_score_update]
      simp only [groupTexts_score_update]
  · intro results
    constructor
    · refine noEmptyGroups_blocks _ ?_
      intro g hg
      obtain ⟨s, hs, rfl⟩ := List.mem_map.mp hg
      exact groupTexts_ne_nil
        ((mem_keysInOrder results s).mp (mem_of_mem_orderedKeys hs))
    · refine noEmptyGroups_blocks _ ?_
      intro g hg
      obtain ⟨s, hs, rfl⟩ := List.mem_map.mp hg
      exact groupTexts_ne_nil
        ((mem_keysInOrder results s).mp (mem_of_mem_orderedKeys hs))

/-- C9 counterexample: on the assistant page the thematic-summary group
`sumarizacoes` is emitted before the aggregate insight group
`insights_despesas`, so the groups do not appear in the specification's fixed
semantic priority order (aggregate/insight-level first). -/
theorem page_thematic_before_aggregate :
    formatContextPage
        [⟨"s1", 1, "sumarizacoes"⟩, ⟨"i1", 2, "insights_despesas"⟩] =
      [CtxPart.header "\n=== SUMARIZAÇÕES DE PROPOSIÇÕES ===\n",
       CtxPart.doc "s1",
       CtxPart.header "\n=== INSIGHTS: INSIGHTS_DESPESAS ===\n",
       CtxPart.doc "i1"] := by
  decide

/-- C9 amended: both context assemblers emit every selected result exactly
once — the documents of the assembled context are a permutation of the input
texts (each input lands in the single group of its source), so the document
count equals the number of results passed in; the emitted group sequence is
each implementation's own hard-coded source order (the hard-coded priority
names that are present, then the remaining sources in first-occurrence
order), and the assembled output never consults a score (replacing every
score leaves it unchanged).  That hard-coded order coincides with the
specification's aggregate-first priority order only in `app.py` (see the
counterexample for the page). -/
theorem context_emits_each_result_once (results : List SearchResult) :
    ((List.Perm (docTexts (formatContextApp results))
        (results.map (fun r => r.text)) ∧
      (docTexts (formatContextApp results)).length = results.length) ∧
    List.Perm (docTexts (formatContextPage results))
        (results.map (fun r => r.text)) ∧
      (docTexts (formatContextPage results)).length = results.length) ∧
    (∀ f : SearchResult → ℚ,
      formatContextApp (results.map (fun r => ⟨r.text, f r, r.source⟩)) =
          formatContextApp results ∧
        formatContextPage (results.map (fun r => ⟨r.text, f r, r.source⟩)) =
          formatContextPage results) ∧
    headerTexts (formatContextApp results) =
        (orderedKeys fixedApp (keysInOrder results)).map headerApp ∧
    headerTexts (formatContextPage results) =
      (orderedKeys fixedPage (keysInOrder results)).map headerPage := by
  have happ :
      List.Perm (docTexts (formatContextApp results))
        (results.map (fun r => r.text)) := by
    rw [docTexts_formatContextApp]
    exact (orderedKeys_partition results fixedApp (by decide)).map _
  have hpage :
      List.Perm (docTexts (formatContextPage results))
        (results.map (fun r => r.text)) := by
    rw [docTexts_formatContextPage]
    exact (orderedKeys_partition results fixedPage (by decide)).map _
  refine ⟨⟨⟨happ, ?_⟩, hpage, ?_⟩, ?_, ?_, ?_⟩
  · rw [happ.length_eq, List.length_map]
  · rw [hpage.length_eq, List.length_map]
  · intro f
    constructor
    · rw [formatContextApp, formatContextApp, groupBlocksApp, groupBlocksApp,
        keysInOrder_score_update]
      simp only [groupTexts_score_update]
    · rw [formatContextPage, formatContextPage, groupBlocksPage, groupBlocksPage,
        keysInOrder_score_update]
      simp only [groupTexts_score_update]
  · rw [formatContextApp, headerTexts_flatMap_blocks, groupBlocksApp,
      List.map_map]
    rfl
  · rw [formatContextPage, headerTexts_flatMap_blocks, groupBlocksPage,
      List.map_map]
    rfl
